import Mathlib

/-!
Verification of the lighthouse pipeline orchestrator (lighthouse-core/runner.js).

The JavaScript source is shallowly embedded: the orchestrator and its pure
helpers (`shouldGather`, `shouldAudit`, `_getArtifactsPath`, the gather-phase
and audit-phase validation logic, and the result-assembly code of `Runner.run`)
are translated into executable Lean definitions.  The out-of-scope
collaborators (GatherRunner, AuditRunner, asset saver and loader, scorer,
report generator, i18n) are injected as function-valued fields of a
`Collaborators` record, exactly as runner.js consumes them through module
imports.  Effects that the orchestrator performs (saving artifacts, Sentry
breadcrumbs and fatal exception capture) are recorded in an explicit effect
trace.  Thrown JS errors are modelled with `Except`.
-/

deriving instance DecidableEq for Except

/-- A run-mode flag as it appears in the settings object of runner.js:
`gatherMode` and `auditMode` each hold `false`, `true`, or a string
(the lighthouse default config records both as `false` when unset). -/
inductive ModeFlag where
  | mfalse : ModeFlag
  | mtrue : ModeFlag
  | mstr : String → ModeFlag
deriving DecidableEq

/-- JavaScript truthiness of a mode flag: `false` is falsy, `true` is truthy,
and a string is truthy exactly when it is non-empty (the empty string is
falsy in JavaScript). -/
def ModeFlag.truthy : ModeFlag → Bool
  | .mfalse => false
  | .mtrue => true
  | .mstr s => !(s == "")

/-- The settings record of runner.js.  Besides the three run-mode knobs
(`gatherMode`, `auditMode`, `output`) it carries the measurement-affecting
configuration: `locale` (used for i18n) and the remaining fields, modelled
as an opaque association list `domain` (throttling method and so on). -/
structure Settings where
  gatherMode : ModeFlag
  auditMode : ModeFlag
  output : String
  locale : String
  domain : List (String × String)
deriving DecidableEq

/-- The `artifacts.URL` record: `requestedUrl` and `finalUrl`. -/
structure URLRecord where
  requestedUrl : String
  finalUrl : String
deriving DecidableEq

/-- The artifacts object produced by the gather phase or loaded from disk.
Only the keys runner.js itself reads are modelled; `settings` is the
settings snapshot recorded at collection time (present only when the
artifacts were persisted), `LighthouseRunWarnings` the collection-phase
warnings. -/
structure Artifacts where
  URL : URLRecord
  settings : Option Settings
  LighthouseRunWarnings : Option (List String)
  fetchTime : String
  HostUserAgent : String
  NetworkUserAgent : String
  BenchmarkIndex : Nat
deriving DecidableEq

/-- An audit result as assembled into the report: runner.js only inspects
its `id` (for keying) and the claims only its `score`. -/
structure AuditResult where
  id : String
  score : Int
deriving DecidableEq

/-- A pass definition is opaque to runner.js, which only forwards the list
to GatherRunner. -/
abbrev Pass := String

/-- An audit definition is opaque to runner.js, which only forwards the
list to AuditRunner. -/
abbrev Audit := String

/-- A category definition: an id plus weighted audit references; opaque to
runner.js, which forwards it to the scorer. -/
structure Category where
  id : String
  auditRefs : List (String × Int)
deriving DecidableEq

/-- A category score record as returned by the scorer. -/
structure CategoryResult where
  score : Int
deriving DecidableEq

/-- The config object: settings plus the optional passes, audits,
categories and groups sections (`none` models an absent key). -/
structure Config where
  settings : Settings
  passes : Option (List Pass)
  audits : Option (List Audit)
  categories : Option (List Category)
  groups : Option (List String)
deriving DecidableEq

/-- The runOpts argument of Runner.run: the config and the optional target
url.  The connection and driver mock are consumed only by the injected
GatherRunner collaborator and are folded into it. -/
structure RunOpts where
  config : Config
  url : Option String
deriving DecidableEq

/-- The errors runner.js throws, one constructor per `throw new Error(...)`
site, plus `collaborator` for errors raised by an injected collaborator and
rethrown unmodified:
`missingPasses` = No passes in config to run;
`missingTarget` = You must provide a url to the runner;
`invalidTarget` = The url provided should have a proper protocol and hostname;
`missingAudits` = No audits in config to evaluate;
`targetMismatch` = Cannot run audit mode on different URL than gatherers were;
`settingsMismatch` = Cannot change settings between gathering and auditing. -/
inductive RunnerError where
  | missingPasses : RunnerError
  | missingTarget : RunnerError
  | invalidTarget : RunnerError
  | missingAudits : RunnerError
  | targetMismatch : RunnerError
  | settingsMismatch : RunnerError
  | collaborator : String → RunnerError
deriving DecidableEq

/-- The environment block of the report record. -/
structure Environment where
  networkUserAgent : String
  hostUserAgent : String
  benchmarkIndex : Nat
deriving DecidableEq

/-- The timing block of the report record. -/
structure Timing where
  total : Int
deriving DecidableEq

/-- The i18n block of the report record. -/
structure I18nBlock where
  rendererFormattedStrings : List (String × String)
  icuMessagePaths : List (String × String)
deriving DecidableEq

/-- The assembled report record (LH.Result) as built in Runner.run. -/
structure LHR where
  userAgent : String
  environment : Environment
  lighthouseVersion : String
  fetchTime : String
  requestedUrl : String
  finalUrl : String
  runWarnings : List String
  audits : List (String × AuditResult)
  configSettings : Settings
  categories : List (String × CategoryResult)
  categoryGroups : Option (List String)
  timing : Timing
  i18n : I18nBlock
deriving DecidableEq

/-- The value Runner.run resolves with on a full run:
`return (lhr, artifacts, report)`. -/
structure RunnerResult where
  lhr : LHR
  artifacts : Artifacts
  report : String
deriving DecidableEq

/-- Side effects the orchestrator performs, recorded as a trace:
the Sentry breadcrumb at run start, each artifacts save, and each fatal
Sentry exception capture. -/
inductive Effect where
  | breadcrumb : Effect
  | savedArtifacts : String → Artifacts → Effect
  | telemetryFatal : RunnerError → Effect
deriving DecidableEq

/-- The collaborator modules runner.js calls into; all are out of scope for
the spec and injected here as opaque functions.  Fallible collaborators
return `Except String` and their errors are rethrown by the orchestrator
unmodified (wrapped in `RunnerError.collaborator`). -/
structure Collaborators where
  loadArtifacts : String → Except String Artifacts
  saveArtifacts : Artifacts → String → Except String Unit
  gatherRun : String → List Pass → Settings → Except String Artifacts
  auditRun : Settings → List Audit → Artifacts → Except String (List AuditResult × List String)
  scoreAllCategories : List Category → List (String × AuditResult) → List (String × CategoryResult)
  generateReport : LHR → String → String
  getRendererFormattedStrings : String → List (String × String)
  replaceIcuMessageInstanceIds : LHR → String → List (String × String)

/-- The version string read from package.json; the file is outside the
embedded source and the value is irrelevant to every claim. -/
def lighthouseVersion : String := "3.0.0"

/-- JavaScript truthiness of an optional string value (`runOpts.url`):
`undefined` and the empty string are falsy. -/
def jsTruthyStr : Option String → Bool
  | none => false
  | some s => !(s == "")

/-- The characters of a string strictly before the first occurrence of a
separator character. -/
def takeUntilChar (sep : Char) : List Char → List Char
  | [] => []
  | c :: rest => if c = sep then [] else c :: takeUntilChar sep rest

/-- Modelled from the spec: the URL fragment is everything from the first
`#` on; `stripFragment` drops it.  The real implementation lives in
lib/url-shim.js, which is not under src/. -/
def stripFragment (u : String) : String :=
  String.mk (takeUntilChar '#' u.data)

/-- Splits a character list at the first `://`, returning the scheme part
and the remainder. -/
def splitScheme : List Char → Option (List Char × List Char)
  | ':' :: '/' :: '/' :: rest => some ([], rest)
  | c :: rest =>
      match splitScheme rest with
      | some (s, r) => some (c :: s, r)
      | none => none
  | [] => none

/-- Modelled from the spec: canonicalization of the target identifier,
`new URL(url).href` through lib/url-shim.js (not under src/).  A
well-formed identifier has a proper protocol and hostname, modelled as
`scheme://rest` with both parts non-empty; canonicalization adds the
trailing slash an origin-only URL gains through `href`. -/
def parseURL (u : String) : Option String :=
  match splitScheme u.data with
  | none => none
  | some (scheme, rest) =>
      if scheme.isEmpty || rest.isEmpty then none
      else if rest.contains '/' then some u else some (u ++ "/")

/-- Modelled from the spec: `URL.equalWithExcludedFragments` from
lib/url-shim.js (not under src/) compares two URLs with an equality that
ignores URL fragment differences; each side is parsed and canonicalized
with its fragment removed before comparison. -/
def equalWithExcludedFragments (u1 u2 : String) : Bool :=
  parseURL (stripFragment u1) == parseURL (stripFragment u2)

/-- `path.resolve(process.cwd(), p)` from the node path module: an absolute
path stands, a relative one is resolved against the working directory. -/
def pathResolve (cwd p : String) : String :=
  match p.data with
  | '/' :: _ => p
  | _ => cwd ++ "/" ++ p

/-- `path.join(a, b)` from the node path module. -/
def pathJoin (a b : String) : String :=
  a ++ "/" ++ b

/-- Runner._getArtifactsPath: a string `auditMode` wins, then a string
`gatherMode`, else the fixed `latest-run` directory under the working
directory. -/
def Runner.getArtifactsPath (cwd : String) (s : Settings) : String :=
  match s.auditMode with
  | .mstr p => pathResolve cwd p
  | _ =>
      match s.gatherMode with
      | .mstr p => pathResolve cwd p
      | _ => pathJoin cwd "latest-run"

/-- Runner.shouldGather:
`!!(settings.gatherMode || settings.gatherMode === settings.auditMode)`. -/
def Runner.shouldGather (s : Settings) : Bool :=
  s.gatherMode.truthy || s.gatherMode == s.auditMode

/-- Runner.shouldAudit:
`!!(settings.auditMode || settings.gatherMode === settings.auditMode)`. -/
def Runner.shouldAudit (s : Settings) : Bool :=
  s.auditMode.truthy || s.gatherMode == s.auditMode

/-- Runner.gatherArtifacts: when gathering is not requested, load the
artifacts from disk at the resolved path; otherwise require a passes
section and a non-empty url string, canonicalize the url, and hand the
canonical url, the passes and the settings to GatherRunner. -/
def Runner.gatherArtifacts (c : Collaborators) (cwd : String) (opts : RunOpts) :
    Except RunnerError Artifacts :=
  if !(Runner.shouldGather opts.config.settings) then
    (c.loadArtifacts (Runner.getArtifactsPath cwd opts.config.settings)).mapError .collaborator
  else
    match opts.config.passes with
    | none => .error .missingPasses
    | some passes =>
        match opts.url with
        | none => .error .missingTarget
        | some u =>
            if u == "" then .error .missingTarget
            else
              match parseURL u with
              | none => .error .invalidTarget
              | some requestedUrl =>
                  (c.gatherRun requestedUrl passes opts.config.settings).mapError .collaborator

/-- The settings comparison of Runner.auditArtifacts: both settings objects
are copied with `gatherMode`, `auditMode` and `output` overwritten by
`undefined` before the lodash deep-equality check.  Since both sides
receive the same override values, the comparison outcome depends only on
the remaining fields; the overrides are modelled by fixed constants. -/
def Runner.normalizeSettings (s : Settings) : Settings :=
  { s with gatherMode := ModeFlag.mfalse, auditMode := ModeFlag.mfalse, output := "" }

/-- Runner.auditArtifacts: require an audits section; if a truthy url was
supplied, compare it (ignoring fragments) with the recorded requested url;
if the artifacts carry a settings snapshot, deep-compare it with the
current settings after excluding the run-mode knobs; then run AuditRunner
over the artifacts.  (The merge with the computed-artifact request
functions is inside the AuditRunner collaborator boundary here; the
computed-artifact registry itself is modelled separately below.) -/
def Runner.auditArtifacts (c : Collaborators) (artifacts : Artifacts) (opts : RunOpts) :
    Except RunnerError (List AuditResult × List String) :=
  match opts.config.audits with
  | none => .error .missingAudits
  | some audits =>
      if jsTruthyStr opts.url
          && !(equalWithExcludedFragments (opts.url.getD "") artifacts.URL.requestedUrl) then
        .error .targetMismatch
      else
        let settingsOk : Bool :=
          match artifacts.settings with
          | none => true
          | some gs =>
              Runner.normalizeSettings gs == Runner.normalizeSettings opts.config.settings
        if settingsOk then
          (c.auditRun opts.config.settings audits artifacts).mapError .collaborator
        else .error .settingsMismatch

/-- One step of the `resultsById[audit.id] = audit` loop on a JS object
modelled as an insertion-ordered association list: overwriting keeps the
position of an existing key, a new key is appended. -/
def upsertById (m : List (String × AuditResult)) (a : AuditResult) :
    List (String × AuditResult) :=
  if m.any (fun p => p.1 == a.id) then
    m.map (fun p => if p.1 == a.id then (p.1, a) else p)
  else m ++ [(a.id, a)]

/-- The `resultsById` object of Runner.run. -/
def Runner.resultsById (results : List AuditResult) : List (String × AuditResult) :=
  results.foldl upsertById []

/-- Key lookup on a JS object modelled as an association list. -/
def lookupAssoc {α : Type} (m : List (String × α)) (k : String) : Option α :=
  match m with
  | [] => none
  | p :: rest => if p.1 == k then some p.2 else lookupAssoc rest k

/-- The artifacts-saving step of Runner.run: performed exactly when
`settings.gatherMode` is truthy; on success it contributes a
`savedArtifacts` effect, a store failure propagates. -/
def Runner.saveStep (c : Collaborators) (cwd : String) (s : Settings) (artifacts : Artifacts) :
    Except String (List Effect) :=
  if s.gatherMode.truthy then
    match c.saveArtifacts artifacts (Runner.getArtifactsPath cwd s) with
    | .ok _ => .ok [Effect.savedArtifacts (Runner.getArtifactsPath cwd s) artifacts]
    | .error m => .error m
  else .ok []

/-- The LHR construction phase of Runner.run: key the audit results by id,
score the categories when a categories config is present (else an empty
mapping), concatenate the audit-phase warnings with the collection-phase
warnings, assemble the record, then replace the ICU message instances
recording the replaced paths into the i18n block. -/
def Runner.assembleLHR (c : Collaborators) (t0 t1 : Int) (opts : RunOpts)
    (artifacts : Artifacts) (auditResults : List AuditResult)
    (auditRunWarnings : List String) : LHR :=
  let byId := Runner.resultsById auditResults
  let categories :=
    match opts.config.categories with
    | some cats => c.scoreAllCategories cats byId
    | none => []
  let lhr0 : LHR :=
    { userAgent := artifacts.HostUserAgent
      environment :=
        ⟨artifacts.NetworkUserAgent, artifacts.HostUserAgent, artifacts.BenchmarkIndex⟩
      lighthouseVersion := lighthouseVersion
      fetchTime := artifacts.fetchTime
      requestedUrl := artifacts.URL.requestedUrl
      finalUrl := artifacts.URL.finalUrl
      runWarnings := auditRunWarnings ++ artifacts.LighthouseRunWarnings.getD []
      audits := byId
      configSettings := opts.config.settings
      categories := categories
      categoryGroups := opts.config.groups
      timing := ⟨t1 - t0⟩
      i18n := ⟨c.getRendererFormattedStrings opts.config.settings.locale, []⟩ }
  { lhr0 with
      i18n :=
        ⟨lhr0.i18n.rendererFormattedStrings,
         c.replaceIcuMessageInstanceIds lhr0 opts.config.settings.locale⟩ }

/-- The body of the try block of Runner.run (everything after the opening
breadcrumb), together with the error handler: gather, save when gatherMode
is truthy, quit early when auditing is not requested, audit, assemble, and
on any error capture it fatally and rethrow it. `t0` and `t1` are the two
`Date.now()` readings. -/
def Runner.runInner (c : Collaborators) (t0 t1 : Int) (cwd : String) (opts : RunOpts) :
    Except RunnerError (Option RunnerResult) × List Effect :=
  match Runner.gatherArtifacts c cwd opts with
  | .error e => (.error e, [Effect.telemetryFatal e])
  | .ok artifacts =>
      match Runner.saveStep c cwd opts.config.settings artifacts with
      | .error m =>
          (.error (.collaborator m), [Effect.telemetryFatal (.collaborator m)])
      | .ok saveEffs =>
          if !(Runner.shouldAudit opts.config.settings) then (.ok none, saveEffs)
          else
            match Runner.auditArtifacts c artifacts opts with
            | .error e => (.error e, saveEffs ++ [Effect.telemetryFatal e])
            | .ok res =>
                let lhr := Runner.assembleLHR c t0 t1 opts artifacts res.1 res.2
                (.ok (some ⟨lhr, artifacts, c.generateReport lhr opts.config.settings.output⟩),
                 saveEffs)

/-- Runner.run: the Sentry breadcrumb is captured first, then the pipeline
runs; a collect-only run resolves with `undefined` (`.ok none`), a full run
with the report record triple, and any escaping error is captured fatally
exactly once and rethrown. -/
def Runner.run (c : Collaborators) (t0 t1 : Int) (cwd : String) (opts : RunOpts) :
    Except RunnerError (Option RunnerResult) × List Effect :=
  ((Runner.runInner c t0 t1 cwd opts).1,
   Effect.breadcrumb :: (Runner.runInner c t0 t1 cwd opts).2)

/-- Recognizes the fatal telemetry captures in an effect trace. -/
def isFatalEffect : Effect → Bool
  | .telemetryFatal _ => true
  | _ => false

/-! ### The computed-artifact registry

Modelled from the spec: the memoization logic lives in
gather/computed/computed-artifact.js, which is not under src/; only its
instantiation site (Runner.instantiateComputedArtifacts) is.  Following
spec sections 4.4 and 9, the registry is a per-run state machine mapping
each name to the promise cached for it: `request(name)` returns the cached
promise (in flight or settled) when one exists, else starts the
computation, caches its promise immediately, and returns it.  A promise is
identified by a fresh numeric id; two callers receive the same promise,
hence the same resolved value, exactly when they receive the same id.
Lighthouse concurrency is cooperative (single-threaded JS), so concurrent
requests interleave as a sequence of atomic `request` calls. -/

/-- The state of one computed-artifact registry: the promise cache, the
next fresh promise id, and the log of names whose compute function has been
started. -/
structure RegistryState where
  cache : List (String × Nat)
  nextId : Nat
  computeStarts : List String
deriving DecidableEq

/-- The fresh registry a run starts with. -/
def ComputedArtifacts.emptyRegistry : RegistryState := ⟨[], 0, []⟩

/-- Cache lookup by artifact name. -/
def ComputedArtifacts.lookup (cache : List (String × Nat)) (name : String) : Option Nat :=
  match cache with
  | [] => none
  | p :: rest => if p.1 = name then some p.2 else ComputedArtifacts.lookup rest name

/-- Modelled from the spec: `request(name)` on the registry.  A cached name
returns its cached promise and changes nothing; an uncached name starts the
compute function (logged in `computeStarts`), caches a fresh promise id
before it settles, and returns it. -/
def ComputedArtifacts.request (st : RegistryState) (name : String) : Nat × RegistryState :=
  match ComputedArtifacts.lookup st.cache name with
  | some pid => (pid, st)
  | none =>
      (st.nextId,
       ⟨st.cache ++ [(name, st.nextId)], st.nextId + 1, st.computeStarts ++ [name]⟩)

/-- Runs a sequence of requests (the interleaving of all concurrent
callers), returning each caller's (name, promise id) answer and the final
state. -/
def ComputedArtifacts.requestAll (st : RegistryState) :
    List String → List (String × Nat) × RegistryState
  | [] => ([], st)
  | n :: rest =>
      let r1 := ComputedArtifacts.request st n
      let r2 := ComputedArtifacts.requestAll r1.2 rest
      ((n, r1.1) :: r2.1, r2.2)

/-- The promise ids handed to the callers that requested a given name. -/
def answersFor : List (String × Nat) → String → List Nat
  | [], _ => []
  | p :: rest, name => if p.1 = name then p.2 :: answersFor rest name else answersFor rest name

/-- Occurrence count in a list. -/
def countOcc {α : Type} [DecidableEq α] : List α → α → Nat
  | [], _ => 0
  | a :: rest, x => (if a = x then 1 else 0) + countOcc rest x

/-! ### Concrete fixtures used by witnesses and counterexamples -/

/-- The audit result of the single-audit scenario in the spec. -/
def auditA : AuditResult := ⟨"auditA", 1⟩

/-- Default settings: both mode flags false, as in the lighthouse default
config. -/
def settingsDefault : Settings := ⟨.mfalse, .mfalse, "html", "en-US", []⟩

/-- A small artifacts fixture with no recorded settings snapshot and one
collection-phase warning. -/
def artifactsTest : Artifacts :=
  ⟨⟨"http://example.com/", "http://example.com/"⟩, none, some ["gather warning"],
   "t", "UA", "NUA", 100⟩

/-- The single category of the spec scenario. -/
def catTest : Category := ⟨"cat1", [("auditA", 1)]⟩

/-- The score the test scorer assigns to cat1. -/
def catScoreTest : CategoryResult := ⟨1⟩

/-- Deterministic test collaborators. -/
def collabTest : Collaborators :=
  { loadArtifacts := fun _ => .ok artifactsTest
    saveArtifacts := fun _ _ => .ok ()
    gatherRun := fun _ _ _ => .ok artifactsTest
    auditRun := fun _ _ _ => .ok ([auditA], ["audit warning"])
    scoreAllCategories := fun _ _ => [("cat1", catScoreTest)]
    generateReport := fun _ _ => "report-html"
    getRendererFormattedStrings := fun _ => []
    replaceIcuMessageInstanceIds := fun _ _ => [] }

/-- A full default run: both modes unset, one pass, one audit, one
category. -/
def optsFull : RunOpts :=
  ⟨⟨settingsDefault, some ["p"], some ["a"], some [catTest], none⟩, some "http://example.com"⟩

/-- A run requesting gathering with no passes section. -/
def optsNoPasses : RunOpts :=
  ⟨⟨settingsDefault, none, some ["a"], none, none⟩, some "http://example.com"⟩

/-- A run requesting gathering with an empty (but present) passes list. -/
def optsEmptyPasses : RunOpts :=
  ⟨⟨settingsDefault, some [], some ["a"], none, none⟩, some "http://example.com"⟩

/-- An audit invocation with an empty (but present) audits list. -/
def optsEmptyAudits : RunOpts :=
  ⟨⟨settingsDefault, some ["p"], some [], none, none⟩, none⟩

/-- An audit invocation with no audits section. -/
def optsNoAudits : RunOpts :=
  ⟨⟨settingsDefault, some ["p"], none, none, none⟩, none⟩

/-- Collect-only settings: gatherMode true, auditMode unset. -/
def settingsGatherOnly : Settings := ⟨.mtrue, .mfalse, "html", "en-US", []⟩

/-- A collect-only run with truthy gatherMode. -/
def optsGatherOnly : RunOpts :=
  ⟨⟨settingsGatherOnly, some ["p"], some ["a"], none, none⟩, some "http://example.com"⟩

/-- Settings whose auditMode is the empty string: a falsy string, so
neither gathering nor auditing is selected and nothing is persisted. -/
def settingsEmptyStringAudit : Settings := ⟨.mfalse, .mstr "", "html", "en-US", []⟩

/-- A run over `settingsEmptyStringAudit`. -/
def optsCollectOnlyFalsy : RunOpts :=
  ⟨⟨settingsEmptyStringAudit, some ["p"], some ["a"], none, none⟩, some "http://example.com"⟩

/-- Artifacts recorded for `http://example.com/page#one`. -/
def artifactsFrag : Artifacts :=
  ⟨⟨"http://example.com/page#one", "http://example.com/page"⟩, none, none, "t", "UA", "NUA", 100⟩

/-- An audit invocation whose url differs from the recorded one only in
the fragment. -/
def optsFrag : RunOpts :=
  ⟨⟨settingsDefault, some ["p"], some ["a"], none, none⟩, some "http://example.com/page#two"⟩

/-- An audit invocation whose url differs from the recorded one in the
host. -/
def optsHostDiff : RunOpts :=
  ⟨⟨settingsDefault, some ["p"], some ["a"], none, none⟩, some "http://other.com/page"⟩

/-- The current (audit-phase) settings of the settings-consistency
scenario: audit mode on, html output. -/
def settingsAuditSide : Settings :=
  ⟨.mfalse, .mtrue, "html", "en-US", [("throttlingMethod", "devtools")]⟩

/-- The recorded (gather-phase) settings: they differ from
`settingsAuditSide` only in gatherMode, auditMode and output. -/
def settingsGatherSide : Settings :=
  ⟨.mtrue, .mfalse, "json", "en-US", [("throttlingMethod", "devtools")]⟩

/-- Recorded settings that further differ in the throttling method. -/
def settingsGatherSideDiff : Settings :=
  ⟨.mtrue, .mfalse, "json", "en-US", [("throttlingMethod", "simulate")]⟩

/-- Artifacts carrying the compatible recorded settings snapshot. -/
def artifactsWithSettings : Artifacts :=
  ⟨⟨"http://example.com/", "http://example.com/"⟩, some settingsGatherSide, none,
   "t", "UA", "NUA", 100⟩

/-- Artifacts carrying the incompatible recorded settings snapshot. -/
def artifactsWithSettingsDiff : Artifacts :=
  { artifactsWithSettings with settings := some settingsGatherSideDiff }

/-- An audit-only invocation (no url supplied). -/
def optsAuditOnly : RunOpts :=
  ⟨⟨settingsAuditSide, none, some ["a"], none, none⟩, none⟩

/-- The report record the full default run over the test collaborators
produces. -/
def lhrTest : LHR :=
  ⟨"UA", ⟨"NUA", "UA", 100⟩, lighthouseVersion, "t", "http://example.com/",
   "http://example.com/", ["audit warning", "gather warning"], [("auditA", auditA)],
   settingsDefault, [("cat1", catScoreTest)], none, ⟨5⟩, ⟨[], []⟩⟩

/-- The runner result of the full default run over the test collaborators. -/
def resTest : RunnerResult := ⟨lhrTest, artifactsTest, "report-html"⟩

/-! ### Theorems -/

/-- Claim C1, counterexample: the claim asserts that whenever gatherMode is
a string and auditMode is unset, shouldGather is true; but the empty string
is falsy in JavaScript, so for `gatherMode = ""` and `auditMode = false`
Runner.shouldGather evaluates `!!("" || "" === false)` to false. -/
theorem shouldGather_empty_string_counterexample :
    Runner.shouldGather ⟨.mstr "", .mfalse, "html", "en-US", []⟩ = false := by decide

/-- Claim C1 (amended): shouldGather is true exactly when gatherMode is
truthy or gatherMode === auditMode, and shouldAudit is true exactly when
auditMode is truthy or gatherMode === auditMode; when both flags are unset
both are true; when gatherMode is a NON-EMPTY string and auditMode unset,
shouldGather is true and shouldAudit false; when auditMode is true and
gatherMode unset, shouldGather is false and shouldAudit true. -/
theorem modeDispatch_spec (g a : ModeFlag) (out loc : String)
    (dom : List (String × String)) :
    (Runner.shouldGather ⟨g, a, out, loc, dom⟩ = true ↔ (g.truthy = true ∨ g = a)) ∧
    (Runner.shouldAudit ⟨g, a, out, loc, dom⟩ = true ↔ (a.truthy = true ∨ g = a)) ∧
    (Runner.shouldGather ⟨.mfalse, .mfalse, out, loc, dom⟩ = true ∧
      Runner.shouldAudit ⟨.mfalse, .mfalse, out, loc, dom⟩ = true) ∧
    (∀ s : String, s ≠ "" →
      Runner.shouldGather ⟨.mstr s, .mfalse, out, loc, dom⟩ = true ∧
      Runner.shouldAudit ⟨.mstr s, .mfalse, out, loc, dom⟩ = false) ∧
    (Runner.shouldGather ⟨.mfalse, .mtrue, out, loc, dom⟩ = false ∧
      Runner.shouldAudit ⟨.mfalse, .mtrue, out, loc, dom⟩ = true) := by
  refine ⟨?_, ?_, ?_, ?_, ?_⟩
  · simp [Runner.shouldGather, Bool.or_eq_true, beq_iff_eq]
  · simp [Runner.shouldAudit, Bool.or_eq_true, beq_iff_eq]
  · exact ⟨by simp [Runner.shouldGather], by simp [Runner.shouldAudit]⟩
  · intro s hs
    constructor
    · simp [Runner.shouldGather, ModeFlag.truthy, hs]
    · simp [Runner.shouldAudit, ModeFlag.truthy]
  · exact ⟨by simp [Runner.shouldGather, ModeFlag.truthy],
      by simp [Runner.shouldAudit, ModeFlag.truthy]⟩

/-- Witness for C1: the collect-only configuration `-G=./out` selects
gathering and not auditing. -/
theorem modeDispatch_spec_witness :
    Runner.shouldGather ⟨.mstr "./out", .mfalse, "html", "en-US", []⟩ = true ∧
    Runner.shouldAudit ⟨.mstr "./out", .mfalse, "html", "en-US", []⟩ = false :=
  (modeDispatch_spec (.mstr "./out") .mfalse "html" "en-US" []).2.2.2.1 "./out" (by decide)

/-- A cache entry survives appending further entries. -/
theorem ca_lookup_append_some (c1 c2 : List (String × Nat)) (X : String) (p : Nat)
    (h : ComputedArtifacts.lookup c1 X = some p) :
    ComputedArtifacts.lookup (c1 ++ c2) X = some p := by
  induction c1 with
  | nil => simp [ComputedArtifacts.lookup] at h
  | cons q rest ih =>
      by_cases hq : q.1 = X
      · simp [ComputedArtifacts.lookup, hq] at h ⊢
        exact h
      · simp [ComputedArtifacts.lookup, hq] at h ⊢
        exact ih h

/-- Appending an entry for a different name leaves an absent name absent. -/
theorem ca_lookup_append_ne (c1 : List (String × Nat)) (X n : String) (i : Nat)
    (h : ComputedArtifacts.lookup c1 X = none) (hne : n ≠ X) :
    ComputedArtifacts.lookup (c1 ++ [(n, i)]) X = none := by
  induction c1 with
  | nil => simp [ComputedArtifacts.lookup, hne]
  | cons q rest ih =>
      by_cases hq : q.1 = X
      · simp [ComputedArtifacts.lookup, hq] at h
      · simp [ComputedArtifacts.lookup, hq] at h ⊢
        exact ih h

/-- Appending an entry for an absent name makes it present with that id. -/
theorem ca_lookup_append_self (c1 : List (String × Nat)) (X : String) (i : Nat)
    (h : ComputedArtifacts.lookup c1 X = none) :
    ComputedArtifacts.lookup (c1 ++ [(X, i)]) X = some i := by
  induction c1 with
  | nil => simp [ComputedArtifacts.lookup]
  | cons q rest ih =>
      by_cases hq : q.1 = X
      · simp [ComputedArtifacts.lookup, hq] at h
      · simp [ComputedArtifacts.lookup, hq] at h ⊢
        exact ih h

/-- Occurrence counting distributes over append. -/
theorem countOcc_append {α : Type} [DecidableEq α] (l1 l2 : List α) (x : α) :
    countOcc (l1 ++ l2) x = countOcc l1 x + countOcc l2 x := by
  induction l1 with
  | nil => simp [countOcc]
  | cons a rest ih => simp [countOcc, ih, Nat.add_assoc]

/-- Once a name is cached with promise id `p`, every later request of it is
answered with `p`, the cache entry persists, and its compute function is
never started again. -/
theorem requestAll_cached (reqs : List String) :
    ∀ (st : RegistryState) (X : String) (p : Nat),
      ComputedArtifacts.lookup st.cache X = some p →
      answersFor (ComputedArtifacts.requestAll st reqs).1 X
          = List.replicate (countOcc reqs X) p ∧
      ComputedArtifacts.lookup (ComputedArtifacts.requestAll st reqs).2.cache X = some p ∧
      countOcc (ComputedArtifacts.requestAll st reqs).2.computeStarts X
          = countOcc st.computeStarts X := by
  induction reqs with
  | nil =>
      intro st X p h
      exact ⟨by simp [ComputedArtifacts.requestAll, answersFor, countOcc],
        by simpa [ComputedArtifacts.requestAll] using h,
        by simp [ComputedArtifacts.requestAll]⟩
  | cons n rest ih =>
      intro st X p h
      cases hl : ComputedArtifacts.lookup st.cache n with
      | some q =>
          have hreq : ComputedArtifacts.request st n = (q, st) := by
            simp [ComputedArtifacts.request, hl]
          by_cases hnX : n = X
          · subst hnX
            have hq : q = p := by
              have hqp := hl.symm.trans h
              injection hqp
            subst hq
            obtain ⟨ha, hc, hs⟩ := ih st n q h
            refine ⟨?_, ?_, ?_⟩
            · simp [ComputedArtifacts.requestAll, hreq, answersFor, countOcc, ha,
                Nat.add_comm, List.replicate_succ]
            · simpa [ComputedArtifacts.requestAll, hreq] using hc
            · simpa [ComputedArtifacts.requestAll, hreq, countOcc] using hs
          · obtain ⟨ha, hc, hs⟩ := ih st X p h
            refine ⟨?_, ?_, ?_⟩
            · simp [ComputedArtifacts.requestAll, hreq, answersFor, hnX, countOcc, ha]
            · simpa [ComputedArtifacts.requestAll, hreq] using hc
            · simpa [ComputedArtifacts.requestAll, hreq] using hs
      | none =>
          have hnX : n ≠ X := by
            intro he
            subst he
            rw [h] at hl
            exact Option.noConfusion hl
          have hreq : ComputedArtifacts.request st n
              = (st.nextId,
                 ⟨st.cache ++ [(n, st.nextId)], st.nextId + 1, st.computeStarts ++ [n]⟩) := by
            simp [ComputedArtifacts.request, hl]
          have h2 : ComputedArtifacts.lookup (st.cache ++ [(n, st.nextId)]) X = some p :=
            ca_lookup_append_some _ _ _ _ h
          obtain ⟨ha, hc, hs⟩ :=
            ih ⟨st.cache ++ [(n, st.nextId)], st.nextId + 1, st.computeStarts ++ [n]⟩ X p h2
          refine ⟨?_, ?_, ?_⟩
          · simp [ComputedArtifacts.requestAll, hreq, answersFor, hnX, countOcc, ha]
          · simpa [ComputedArtifacts.requestAll, hreq] using hc
          · rw [show (ComputedArtifacts.requestAll st (n :: rest)).2
                = (ComputedArtifacts.requestAll
                    ⟨st.cache ++ [(n, st.nextId)], st.nextId + 1, st.computeStarts ++ [n]⟩ rest).2
                from by simp [ComputedArtifacts.requestAll, hreq]]
            rw [hs]
            simp [countOcc_append, countOcc, hnX]

/-- Requesting a not-yet-cached name at least once starts its compute
function exactly one more time and answers every requester of that name
with one shared promise id. -/
theorem requestAll_uncached (reqs : List String) :
    ∀ (st : RegistryState) (X : String),
      ComputedArtifacts.lookup st.cache X = none →
      1 ≤ countOcc reqs X →
      ∃ p, answersFor (ComputedArtifacts.requestAll st reqs).1 X
            = List.replicate (countOcc reqs X) p ∧
        ComputedArtifacts.lookup (ComputedArtifacts.requestAll st reqs).2.cache X = some p ∧
        countOcc (ComputedArtifacts.requestAll st reqs).2.computeStarts X
            = countOcc st.computeStarts X + 1 := by
  induction reqs with
  | nil =>
      intro st X h hc
      simp [countOcc] at hc
  | cons n rest ih =>
      intro st X h hc
      by_cases hnX : n = X
      · subst hnX
        have hreq : ComputedArtifacts.request st n
            = (st.nextId,
               ⟨st.cache ++ [(n, st.nextId)], st.nextId + 1, st.computeStarts ++ [n]⟩) := by
          simp [ComputedArtifacts.request, h]
        have h2 : ComputedArtifacts.lookup (st.cache ++ [(n, st.nextId)]) n = some st.nextId :=
          ca_lookup_append_self _ _ _ h
        obtain ⟨ha, hcache, hs⟩ :=
          requestAll_cached rest
            ⟨st.cache ++ [(n, st.nextId)], st.nextId + 1, st.computeStarts ++ [n]⟩ n st.nextId h2
        refine ⟨st.nextId, ?_, ?_, ?_⟩
        · simp [ComputedArtifacts.requestAll, hreq, answersFor, countOcc, ha,
            Nat.add_comm, List.replicate_succ]
        · simpa [ComputedArtifacts.requestAll, hreq] using hcache
        · rw [show (ComputedArtifacts.requestAll st (n :: rest)).2
              = (ComputedArtifacts.requestAll
                  ⟨st.cache ++ [(n, st.nextId)], st.nextId + 1, st.computeStarts ++ [n]⟩ rest).2
              from by simp [ComputedArtifacts.requestAll, hreq]]
          rw [hs]
          simp [countOcc_append, countOcc]
      · have hc2 : 1 ≤ countOcc rest X := by
          simpa [countOcc, hnX] using hc
        cases hl : ComputedArtifacts.lookup st.cache n with
        | some q =>
            have hreq : ComputedArtifacts.request st n = (q, st) := by
              simp [ComputedArtifacts.request, hl]
            obtain ⟨p, ha, hcache, hs⟩ := ih st X h hc2
            refine ⟨p, ?_, ?_, ?_⟩
            · simp [ComputedArtifacts.requestAll, hreq, answersFor, hnX, countOcc, ha]
            · simpa [ComputedArtifacts.requestAll, hreq] using hcache
            · simpa [ComputedArtifacts.requestAll, hreq] using hs
        | none =>
            have hreq : ComputedArtifacts.request st n
                = (st.nextId,
                   ⟨st.cache ++ [(n, st.nextId)], st.nextId + 1, st.computeStarts ++ [n]⟩) := by
              simp [ComputedArtifacts.request, hl]
            have h2 : ComputedArtifacts.lookup (st.cache ++ [(n, st.nextId)]) X = none :=
              ca_lookup_append_ne _ _ _ _ h hnX
            obtain ⟨p, ha, hcache, hs⟩ :=
              ih ⟨st.cache ++ [(n, st.nextId)], st.nextId + 1, st.computeStarts ++ [n]⟩ X h2 hc2
            refine ⟨p, ?_, ?_, ?_⟩
            · simp [ComputedArtifacts.requestAll, hreq, answersFor, hnX, countOcc, ha]
            · simpa [ComputedArtifacts.requestAll, hreq] using hcache
            · rw [show (ComputedArtifacts.requestAll st (n :: rest)).2
                  = (ComputedArtifacts.requestAll
                      ⟨st.cache ++ [(n, st.nextId)], st.nextId + 1, st.computeStarts ++ [n]⟩ rest).2
                  from by simp [ComputedArtifacts.requestAll, hreq]]
              rw [hs]
              simp [countOcc_append, countOcc, hnX]

/-- Claim C4: for any interleaving of requests against one fresh per-run
registry in which a name X is requested N >= 2 times, the compute function
for X is started exactly once, all N requesters receive the same promise
(hence the same resolved value), and a further request after completion
returns the cached promise with the registry unchanged (no recomputation). -/
theorem computed_artifact_memoization (reqs : List String) (X : String)
    (h : 2 ≤ countOcc reqs X) :
    ∃ p,
      answersFor (ComputedArtifacts.requestAll ComputedArtifacts.emptyRegistry reqs).1 X
          = List.replicate (countOcc reqs X) p ∧
      countOcc (ComputedArtifacts.requestAll
          ComputedArtifacts.emptyRegistry reqs).2.computeStarts X = 1 ∧
      ComputedArtifacts.request
          (ComputedArtifacts.requestAll ComputedArtifacts.emptyRegistry reqs).2 X
          = (p, (ComputedArtifacts.requestAll ComputedArtifacts.emptyRegistry reqs).2) := by
  obtain ⟨p, ha, hcache, hs⟩ :=
    requestAll_uncached reqs ComputedArtifacts.emptyRegistry X
      (by simp [ComputedArtifacts.emptyRegistry, ComputedArtifacts.lookup])
      (Nat.le_trans (by omega) h)
  refine ⟨p, ha, ?_, ?_⟩
  · simpa [ComputedArtifacts.emptyRegistry, countOcc] using hs
  · simp [ComputedArtifacts.request, hcache]

/-- Witness for C4: three interleaved requests, two of them for X. -/
theorem computed_artifact_memoization_witness :
    ∃ p,
      answersFor (ComputedArtifacts.requestAll
          ComputedArtifacts.emptyRegistry ["X", "Y", "X"]).1 "X"
          = List.replicate (countOcc ["X", "Y", "X"] "X") p ∧
      countOcc (ComputedArtifacts.requestAll ComputedArtifacts.emptyRegistry
          ["X", "Y", "X"]).2.computeStarts "X" = 1 ∧
      ComputedArtifacts.request (ComputedArtifacts.requestAll ComputedArtifacts.emptyRegistry
          ["X", "Y", "X"]).2 "X"
          = (p, (ComputedArtifacts.requestAll ComputedArtifacts.emptyRegistry ["X", "Y", "X"]).2) :=
  computed_artifact_memoization ["X", "Y", "X"] "X" (by decide)
/-- A collaborator error rethrown by the orchestrator is never one of the
orchestrator's own validation errors. -/
theorem mapError_collab_ne {α : Type} (r : Except String α) (e : RunnerError)
    (he : ∀ m, e ≠ RunnerError.collaborator m) :
    r.mapError RunnerError.collaborator ≠ .error e := by
  cases r with
  | ok v => simp [Except.mapError]
  | error m =>
      simp only [Except.mapError]
      intro hh
      injection hh with hh2
      exact he m hh2.symm

/-- Two settings records normalized with the `gatherMode`/`auditMode`/`output`
overrides are deep-equal exactly when all their other fields agree. -/
theorem normalize_eq_iff (a b : Settings) :
    Runner.normalizeSettings a = Runner.normalizeSettings b ↔
      (a.locale = b.locale ∧ a.domain = b.domain) := by
  cases a
  cases b
  simp [Runner.normalizeSettings, Settings.mk.injEq]

/-- Claim C2: during the evaluation phase, an absent `artifacts.settings`
makes the consistency check succeed trivially (AuditRunner is invoked);
a present snapshot makes the run fail with the SettingsMismatch error
exactly when the snapshot and the current settings differ on a field other
than gatherMode, auditMode and output, and succeed when only those three
differ. -/
theorem settings_consistency_spec (c : Collaborators) (art : Artifacts) (opts : RunOpts)
    (audits : List Audit) (ha : opts.config.audits = some audits) (hu : opts.url = none) :
    (art.settings = none →
      Runner.auditArtifacts c art opts
        = (c.auditRun opts.config.settings audits art).mapError RunnerError.collaborator) ∧
    (∀ gs, art.settings = some gs →
      ((Runner.auditArtifacts c art opts = .error .settingsMismatch
          ↔ ¬(gs.locale = opts.config.settings.locale ∧
              gs.domain = opts.config.settings.domain)) ∧
        ((gs.locale = opts.config.settings.locale ∧
            gs.domain = opts.config.settings.domain) →
          Runner.auditArtifacts c art opts
            = (c.auditRun opts.config.settings audits art).mapError RunnerError.collaborator))) := by
  have hskip : jsTruthyStr opts.url = false := by rw [hu]; rfl
  constructor
  · intro hset
    simp [Runner.auditArtifacts, ha, hskip, hset]
  · intro gs hset
    by_cases hnorm : Runner.normalizeSettings gs = Runner.normalizeSettings opts.config.settings
    · have hres : Runner.auditArtifacts c art opts
          = (c.auditRun opts.config.settings audits art).mapError RunnerError.collaborator := by
        simp [Runner.auditArtifacts, ha, hskip, hset, hnorm]
      refine ⟨⟨?_, ?_⟩, fun _ => hres⟩
      · intro herr
        exact absurd (hres ▸ herr)
          (mapError_collab_ne _ _ (fun m hh => RunnerError.noConfusion hh))
      · intro hne
        exact absurd ((normalize_eq_iff gs opts.config.settings).mp hnorm) hne
    · have hbeq : (Runner.normalizeSettings gs
          == Runner.normalizeSettings opts.config.settings) = false :=
        beq_eq_false_iff_ne.mpr hnorm
      have hres : Runner.auditArtifacts c art opts = .error .settingsMismatch := by
        simp [Runner.auditArtifacts, ha, hskip, hset, hbeq]
      refine ⟨⟨?_, fun _ => hres⟩, ?_⟩
      · intro _ hcon
        exact hnorm ((normalize_eq_iff gs opts.config.settings).mpr hcon)
      · intro hcon
        exact absurd ((normalize_eq_iff gs opts.config.settings).mpr hcon) hnorm

/-- When the url comparison passes (or is skipped), auditArtifacts never
fails with the TargetMismatch error. -/
theorem auditArtifacts_ne_target_of_url_ok (c : Collaborators) (art : Artifacts)
    (opts : RunOpts) (audits : List Audit) (ha : opts.config.audits = some audits)
    (hurl : (jsTruthyStr opts.url
        && !(equalWithExcludedFragments (opts.url.getD "") art.URL.requestedUrl)) = false) :
    Runner.auditArtifacts c art opts ≠ .error .targetMismatch := by
  simp only [Runner.auditArtifacts, ha, hurl, Bool.false_eq_true, if_false]
  split
  · exact mapError_collab_ne _ _ (fun m hh => RunnerError.noConfusion hh)
  · simp

/-- Claim C3: when a non-empty target url was supplied, the evaluation
phase fails with the TargetMismatch error exactly when the supplied url
and `artifacts.URL.requestedUrl` differ beyond their fragments; urls
differing only in the fragment are accepted, and with no url supplied the
check is skipped (TargetMismatch is never raised). -/
theorem target_check_spec (c : Collaborators) (art : Artifacts) (opts : RunOpts)
    (audits : List Audit) (ha : opts.config.audits = some audits) :
    (∀ u, opts.url = some u → u ≠ "" →
      (Runner.auditArtifacts c art opts = .error .targetMismatch
        ↔ parseURL (stripFragment u) ≠ parseURL (stripFragment art.URL.requestedUrl))) ∧
    (∀ u, opts.url = some u → u ≠ "" →
      stripFragment u = stripFragment art.URL.requestedUrl →
      Runner.auditArtifacts c art opts ≠ .error .targetMismatch) ∧
    (opts.url = none → Runner.auditArtifacts c art opts ≠ .error .targetMismatch) := by
  have part1 : ∀ u, opts.url = some u → u ≠ "" →
      (Runner.auditArtifacts c art opts = .error .targetMismatch
        ↔ parseURL (stripFragment u) ≠ parseURL (stripFragment art.URL.requestedUrl)) := by
    intro u hu hne
    by_cases hfrag : parseURL (stripFragment u) = parseURL (stripFragment art.URL.requestedUrl)
    · have hcond : (jsTruthyStr opts.url
          && !(equalWithExcludedFragments (opts.url.getD "") art.URL.requestedUrl)) = false := by
        rw [hu]
        simp [equalWithExcludedFragments, hfrag]
      exact ⟨fun herr => absurd herr (auditArtifacts_ne_target_of_url_ok c art opts audits ha hcond),
        fun hcon => absurd hfrag hcon⟩
    · have hts : jsTruthyStr (some u) = true := by
        simp [jsTruthyStr, hne]
      have hbeq : equalWithExcludedFragments u art.URL.requestedUrl = false := by
        simp [equalWithExcludedFragments]
        exact hfrag
      have hres : Runner.auditArtifacts c art opts = .error .targetMismatch := by
        simp [Runner.auditArtifacts, ha, hu, hts, hbeq]
      exact ⟨fun _ => hfrag, fun _ => hres⟩
  refine ⟨part1, ?_, ?_⟩
  · intro u hu hne hstrip herr
    exact ((part1 u hu hne).mp herr) (by rw [hstrip])
  · intro hu
    have hcond : (jsTruthyStr opts.url
        && !(equalWithExcludedFragments (opts.url.getD "") art.URL.requestedUrl)) = false := by
      rw [hu]
      rfl
    exact auditArtifacts_ne_target_of_url_ok c art opts audits ha hcond

/-- Claim C6 (amended): the evaluation phase fails with the
MissingAuditsConfig error exactly when `config.audits` is absent; an empty
(but present) audits list is not rejected and is passed to the Evaluator. -/
theorem audits_validation_spec (c : Collaborators) (art : Artifacts) (opts : RunOpts) :
    (Runner.auditArtifacts c art opts = .error .missingAudits ↔ opts.config.audits = none) ∧
    (∀ audits, opts.config.audits = some audits →
      jsTruthyStr opts.url = false →
      art.settings = none →
      Runner.auditArtifacts c art opts
        = (c.auditRun opts.config.settings audits art).mapError RunnerError.collaborator) := by
  constructor
  · cases hau : opts.config.audits with
    | none => simp [Runner.auditArtifacts, hau]
    | some l =>
        constructor
        · intro herr
          exfalso
          revert herr
          simp only [Runner.auditArtifacts, hau]
          split
          · simp
          · split
            · exact mapError_collab_ne _ _ (fun m hh => RunnerError.noConfusion hh)
            · simp
        · intro hh
          exact Option.noConfusion hh
  · intro audits ha hsk hset
    simp [Runner.auditArtifacts, ha, hsk, hset]

/-- When gathering is selected and all gather-phase checks pass, the
Collector is invoked with the canonicalized url. -/
theorem gather_val_ok (c : Collaborators) (cwd : String) (opts : RunOpts)
    (passes : List Pass) (u canon : String)
    (hg : Runner.shouldGather opts.config.settings = true)
    (hp : opts.config.passes = some passes) (hu : opts.url = some u)
    (hue : u ≠ "") (hpu : parseURL u = some canon) :
    Runner.gatherArtifacts c cwd opts
      = (c.gatherRun canon passes opts.config.settings).mapError RunnerError.collaborator := by
  have hueb : (u == "") = false := beq_eq_false_iff_ne.mpr hue
  simp [Runner.gatherArtifacts, hg, hp, hu, hueb, hpu]

/-- Claim C5 (amended): when collection is required, the run fails with
the MissingPassesConfig error exactly when `config.passes` is absent (an
empty pass list is accepted), with the MissingTarget error exactly when no
non-empty url string is supplied, with the InvalidTarget error exactly
when the url cannot be parsed; otherwise the Collector receives the
canonicalized identifier. -/
theorem gather_validation_spec (c : Collaborators) (cwd : String) (opts : RunOpts)
    (hg : Runner.shouldGather opts.config.settings = true) :
    (Runner.gatherArtifacts c cwd opts = .error .missingPasses ↔ opts.config.passes = none) ∧
    (∀ passes, opts.config.passes = some passes →
      ((Runner.gatherArtifacts c cwd opts = .error .missingTarget
          ↔ (opts.url = none ∨ opts.url = some "")) ∧
       (∀ u, opts.url = some u → u ≠ "" →
         ((Runner.gatherArtifacts c cwd opts = .error .invalidTarget ↔ parseURL u = none) ∧
          (∀ canon, parseURL u = some canon →
            Runner.gatherArtifacts c cwd opts
              = (c.gatherRun canon passes opts.config.settings).mapError
                  RunnerError.collaborator))))) := by
  refine ⟨?_, ?_⟩
  · cases hp : opts.config.passes with
    | none => simp [Runner.gatherArtifacts, hg, hp]
    | some l =>
        constructor
        · intro herr
          exfalso
          revert herr
          cases hu : opts.url with
          | none => simp [Runner.gatherArtifacts, hg, hp, hu]
          | some u =>
              by_cases hue : u = ""
              · subst hue
                simp [Runner.gatherArtifacts, hg, hp, hu]
              · have hueb : (u == "") = false := beq_eq_false_iff_ne.mpr hue
                cases hpu : parseURL u with
                | none => simp [Runner.gatherArtifacts, hg, hp, hu, hueb, hpu]
                | some canon =>
                    rw [gather_val_ok c cwd opts l u canon hg hp hu hue hpu]
                    exact mapError_collab_ne _ _ (fun m hh => RunnerError.noConfusion hh)
        · intro hh
          exact Option.noConfusion hh
  · intro passes hp
    constructor
    · cases hu : opts.url with
      | none => simp [Runner.gatherArtifacts, hg, hp, hu]
      | some u =>
          by_cases hue : u = ""
          · subst hue
            simp [Runner.gatherArtifacts, hg, hp, hu]
          · have hueb : (u == "") = false := beq_eq_false_iff_ne.mpr hue
            constructor
            · intro herr
              exfalso
              revert herr
              cases hpu : parseURL u with
              | none => simp [Runner.gatherArtifacts, hg, hp, hu, hueb, hpu]
              | some canon =>
                  rw [gather_val_ok c cwd opts passes u canon hg hp hu hue hpu]
                  exact mapError_collab_ne _ _ (fun m hh => RunnerError.noConfusion hh)
            · intro hh
              exfalso
              cases hh with
              | inl hn => exact Option.noConfusion hn
              | inr hs =>
                  injection hs with h4
                  exact hue h4
    · intro u hu hue
      have hueb : (u == "") = false := beq_eq_false_iff_ne.mpr hue
      constructor
      · cases hpu : parseURL u with
        | none => simp [Runner.gatherArtifacts, hg, hp, hu, hueb, hpu]
        | some canon =>
            constructor
            · intro herr
              exfalso
              revert herr
              rw [gather_val_ok c cwd opts passes u canon hg hp hu hue hpu]
              exact mapError_collab_ne _ _ (fun m hh => RunnerError.noConfusion hh)
            · intro hh
              exact Option.noConfusion hh
      · intro canon hpu
        exact gather_val_ok c cwd opts passes u canon hg hp hu hue hpu
/-- Witness for C2: recorded settings differing only in the run-mode knobs
are accepted; a differing throttling method is rejected. -/
theorem settings_consistency_spec_witness :
    Runner.auditArtifacts collabTest artifactsWithSettings optsAuditOnly
      = (collabTest.auditRun settingsAuditSide ["a"] artifactsWithSettings).mapError
          RunnerError.collaborator ∧
    Runner.auditArtifacts collabTest artifactsWithSettingsDiff optsAuditOnly
      = .error .settingsMismatch :=
  ⟨((settings_consistency_spec collabTest artifactsWithSettings optsAuditOnly ["a"] rfl rfl).2
      settingsGatherSide rfl).2 ⟨rfl, rfl⟩,
   ((settings_consistency_spec collabTest artifactsWithSettingsDiff optsAuditOnly ["a"] rfl rfl).2
      settingsGatherSideDiff rfl).1.mpr (by decide)⟩

/-- Witness for C3: a fragment-only difference is accepted, a host
difference raises TargetMismatch. -/
theorem target_check_spec_witness :
    Runner.auditArtifacts collabTest artifactsFrag optsFrag ≠ .error .targetMismatch ∧
    Runner.auditArtifacts collabTest artifactsFrag optsHostDiff = .error .targetMismatch :=
  ⟨((target_check_spec collabTest artifactsFrag optsFrag ["a"] rfl).2.1
      "http://example.com/page#two" rfl (by decide)) (by decide),
   ((target_check_spec collabTest artifactsFrag optsHostDiff ["a"] rfl).1
      "http://other.com/page" rfl (by decide)).mpr (by decide)⟩

/-- Claim C5, counterexample: the claim asserts the run fails with
MissingPassesConfig when `config.passes` is absent or empty, but
`if (!runOpts.config.passes)` does not fire on an empty array (a truthy JS
value): with `passes: []` gathering proceeds and the Collector is invoked
with the empty pass list. -/
theorem empty_passes_counterexample :
    Runner.gatherArtifacts collabTest "/cwd" optsEmptyPasses = .ok artifactsTest ∧
    Runner.gatherArtifacts collabTest "/cwd" optsEmptyPasses ≠ .error .missingPasses := by
  decide

/-- Witness for C5: a default full run reaches the Collector with the
canonicalized url. -/
theorem gather_validation_spec_witness :
    Runner.gatherArtifacts collabTest "/cwd" optsFull
      = (collabTest.gatherRun "http://example.com/" ["p"] settingsDefault).mapError
          RunnerError.collaborator :=
  (((gather_validation_spec collabTest "/cwd" optsFull (by decide)).2 ["p"] rfl).2
      "http://example.com" rfl (by decide)).2 "http://example.com/" (by decide)

/-- Claim C6, counterexample: the claim asserts the run fails with
MissingAuditsConfig when `config.audits` is absent or empty, but
`if (!config.audits)` does not fire on an empty array (a truthy JS value):
with `audits: []` the Evaluator is invoked and no error is raised. -/
theorem empty_audits_counterexample :
    Runner.auditArtifacts collabTest artifactsTest optsEmptyAudits
        = .ok ([auditA], ["audit warning"]) ∧
    Runner.auditArtifacts collabTest artifactsTest optsEmptyAudits
        ≠ .error .missingAudits := by
  decide

/-- Witness for C6: an empty audits list reaches the Evaluator; an absent
audits section raises MissingAuditsConfig. -/
theorem audits_validation_spec_witness :
    Runner.auditArtifacts collabTest artifactsTest optsEmptyAudits
      = (collabTest.auditRun settingsDefault [] artifactsTest).mapError
          RunnerError.collaborator ∧
    Runner.auditArtifacts collabTest artifactsTest optsNoAudits = .error .missingAudits :=
  ⟨(audits_validation_spec collabTest artifactsTest optsEmptyAudits).2 [] rfl rfl rfl,
   (audits_validation_spec collabTest artifactsTest optsNoAudits).1.mpr rfl⟩
/-- With a store that always succeeds, the save step contributes exactly
one saved-artifacts effect when gatherMode is truthy and none otherwise. -/
theorem saveStep_of_hsave (c : Collaborators) (cwd : String) (s : Settings) (a : Artifacts)
    (hsave : ∀ a2 p, c.saveArtifacts a2 p = .ok ()) :
    Runner.saveStep c cwd s a
      = .ok (if s.gatherMode.truthy then
          [Effect.savedArtifacts (Runner.getArtifactsPath cwd s) a] else []) := by
  cases ht : s.gatherMode.truthy <;> simp [Runner.saveStep, ht, hsave]

/-- A successful save step contributes either no effect or a single
saved-artifacts effect. -/
theorem saveStep_ok_shape (c : Collaborators) (cwd : String) (s : Settings) (a : Artifacts)
    (l : List Effect) (h : Runner.saveStep c cwd s a = .ok l) :
    l = [] ∨ ∃ p, l = [Effect.savedArtifacts p a] := by
  unfold Runner.saveStep at h
  cases ht : s.gatherMode.truthy with
  | false =>
      rw [ht] at h
      simp at h
      exact Or.inl h
  | true =>
      rw [ht] at h
      simp only [if_true] at h
      cases hr : c.saveArtifacts a (Runner.getArtifactsPath cwd s) with
      | ok u => rw [hr] at h; simp at h; exact Or.inr ⟨_, h.symm⟩
      | error m => rw [hr] at h; simp at h

/-- Whenever the pipeline body fails with an error, its effect trace
contains exactly one fatal telemetry capture, carrying that error. -/
theorem runInner_error_filter (c : Collaborators) (t0 t1 : Int) (cwd : String)
    (opts : RunOpts) (e : RunnerError)
    (h : (Runner.runInner c t0 t1 cwd opts).1 = .error e) :
    (Runner.runInner c t0 t1 cwd opts).2.filter isFatalEffect = [Effect.telemetryFatal e] := by
  cases hg : Runner.gatherArtifacts c cwd opts with
  | error ge =>
      have heq : Runner.runInner c t0 t1 cwd opts
          = (.error ge, [Effect.telemetryFatal ge]) := by
        simp [Runner.runInner, hg]
      rw [heq] at h
      simp at h
      subst h
      rw [heq]
      simp [isFatalEffect]
  | ok artifacts =>
      cases hs : Runner.saveStep c cwd opts.config.settings artifacts with
      | error m =>
          have heq : Runner.runInner c t0 t1 cwd opts
              = (.error (.collaborator m), [Effect.telemetryFatal (.collaborator m)]) := by
            simp [Runner.runInner, hg, hs]
          rw [heq] at h
          simp at h
          subst h
          rw [heq]
          simp [isFatalEffect]
      | ok saveEffs =>
          cases hb : Runner.shouldAudit opts.config.settings with
          | false =>
              have heq : Runner.runInner c t0 t1 cwd opts = (.ok none, saveEffs) := by
                simp [Runner.runInner, hg, hs, hb]
              rw [heq] at h
              simp at h
          | true =>
              cases ha : Runner.auditArtifacts c artifacts opts with
              | error ae =>
                  have heq : Runner.runInner c t0 t1 cwd opts
                      = (.error ae, saveEffs ++ [Effect.telemetryFatal ae]) := by
                    simp [Runner.runInner, hg, hs, hb, ha]
                  rw [heq] at h
                  simp at h
                  subst h
                  rw [heq]
                  rcases saveStep_ok_shape c cwd opts.config.settings artifacts saveEffs hs with
                    hnil | ⟨p, hp⟩
                  · subst hnil
                    simp [isFatalEffect]
                  · subst hp
                    simp [isFatalEffect, List.filter_append]
              | ok ares =>
                  have heq : Runner.runInner c t0 t1 cwd opts
                      = (.ok (some ⟨Runner.assembleLHR c t0 t1 opts artifacts ares.1 ares.2,
                            artifacts,
                            c.generateReport
                              (Runner.assembleLHR c t0 t1 opts artifacts ares.1 ares.2)
                              opts.config.settings.output⟩), saveEffs) := by
                    simp [Runner.runInner, hg, hs, hb, ha]
                  rw [heq] at h
                  simp at h

/-- A gather-phase error is captured fatally and rethrown unchanged. -/
theorem runInner_of_gather_error (c : Collaborators) (t0 t1 : Int) (cwd : String)
    (opts : RunOpts) (e : RunnerError)
    (hg : Runner.gatherArtifacts c cwd opts = .error e) :
    Runner.run c t0 t1 cwd opts
      = (.error e, [Effect.breadcrumb, Effect.telemetryFatal e]) := by
  simp [Runner.run, Runner.runInner, hg]
/-- Claim C7, counterexample: with `auditMode: ""` (a falsy string) and
`gatherMode: false`, shouldAudit is false, yet the run loads artifacts from
disk, persists nothing (the trace holds no saved-artifacts effect), and
returns undefined; the claim asserts every shouldAudit-false run persists
the gathered artifacts. -/
theorem collect_only_no_persist_counterexample :
    Runner.shouldAudit settingsEmptyStringAudit = false ∧
    Runner.run collabTest 0 5 "/cwd" optsCollectOnlyFalsy = (.ok none, [Effect.breadcrumb]) := by
  decide

/-- Claim C7 (amended): for every run in which shouldAudit(settings) is
false and gatherMode is truthy (equivalently: collection actually ran),
the run resolves with undefined, produces no report record, invokes no
evaluation step (the result does not depend on the evaluator, scorer or
renderer collaborators), and persists the gathered artifacts to the
resolved path. -/
theorem collect_only_spec (c : Collaborators) (t0 t1 : Int) (cwd : String) (opts : RunOpts)
    (artifacts : Artifacts)
    (hNoAudit : Runner.shouldAudit opts.config.settings = false)
    (hTruthy : opts.config.settings.gatherMode.truthy = true)
    (hgather : Runner.gatherArtifacts c cwd opts = .ok artifacts)
    (hsave : c.saveArtifacts artifacts (Runner.getArtifactsPath cwd opts.config.settings)
        = .ok ()) :
    Runner.run c t0 t1 cwd opts
      = (.ok none,
         [Effect.breadcrumb,
          Effect.savedArtifacts (Runner.getArtifactsPath cwd opts.config.settings) artifacts]) := by
  have hsS : Runner.saveStep c cwd opts.config.settings artifacts
      = .ok [Effect.savedArtifacts (Runner.getArtifactsPath cwd opts.config.settings) artifacts] := by
    simp [Runner.saveStep, hTruthy, hsave]
  have hin : Runner.runInner c t0 t1 cwd opts
      = (.ok none,
         [Effect.savedArtifacts (Runner.getArtifactsPath cwd opts.config.settings) artifacts]) := by
    simp [Runner.runInner, hgather, hsS, hNoAudit]
  simp [Runner.run, hin]

/-- Witness for C7: a `-G` run saves the artifacts under `latest-run` and
returns undefined. -/
theorem collect_only_spec_witness :
    Runner.run collabTest 0 5 "/cwd" optsGatherOnly
      = (.ok none,
         [Effect.breadcrumb,
          Effect.savedArtifacts (Runner.getArtifactsPath "/cwd" settingsGatherOnly)
            artifactsTest]) :=
  collect_only_spec collabTest 0 5 "/cwd" optsGatherOnly artifactsTest (by decide) (by decide)
    (by decide) rfl

/-- Claim C9: every error escaping a run is reported to the telemetry sink
exactly once, tagged fatal, with the very same error value, and is
re-raised unchanged to the caller (the run result is that error, hence no
report record and no rendered report); in particular a gather-phase error
is captured and rethrown verbatim. -/
theorem error_telemetry_spec (c : Collaborators) (t0 t1 : Int) (cwd : String)
    (opts : RunOpts) (e : RunnerError) (effs : List Effect)
    (h : Runner.run c t0 t1 cwd opts = (.error e, effs)) :
    effs.filter isFatalEffect = [Effect.telemetryFatal e] ∧
    (∀ e2, Runner.gatherArtifacts c cwd opts = .error e2 →
      Runner.run c t0 t1 cwd opts
        = (.error e2, [Effect.breadcrumb, Effect.telemetryFatal e2])) := by
  have hfst : (Runner.runInner c t0 t1 cwd opts).1 = .error e := by
    have h2 := congrArg Prod.fst h
    simpa [Runner.run] using h2
  have hsnd : effs = Effect.breadcrumb :: (Runner.runInner c t0 t1 cwd opts).2 := by
    have h2 := congrArg Prod.snd h
    simpa [Runner.run] using h2.symm
  constructor
  · subst hsnd
    have hfilter := runInner_error_filter c t0 t1 cwd opts e hfst
    simp [List.filter_cons, isFatalEffect, hfilter]
  · intro e2 hg2
    exact runInner_of_gather_error c t0 t1 cwd opts e2 hg2

/-- Witness for C9: a run with no passes config fails with MissingPasses,
captured fatally exactly once. -/
theorem error_telemetry_spec_witness :
    ([Effect.breadcrumb, Effect.telemetryFatal RunnerError.missingPasses].filter isFatalEffect
        = [Effect.telemetryFatal RunnerError.missingPasses]) ∧
    Runner.run collabTest 0 5 "/cwd" optsNoPasses
      = (.error RunnerError.missingPasses,
         [Effect.breadcrumb, Effect.telemetryFatal RunnerError.missingPasses]) :=
  ⟨(error_telemetry_spec collabTest 0 5 "/cwd" optsNoPasses .missingPasses
      [Effect.breadcrumb, Effect.telemetryFatal .missingPasses] (by decide)).1,
   (error_telemetry_spec collabTest 0 5 "/cwd" optsNoPasses .missingPasses
      [Effect.breadcrumb, Effect.telemetryFatal .missingPasses] (by decide)).2
      .missingPasses (by decide)⟩

/-- With a store that always succeeds, the effect trace of a run whose
gather phase succeeded is the breadcrumb, then the save effect exactly
when gatherMode is truthy, then at most one fatal telemetry capture. -/
theorem run_trace_decomp (c : Collaborators) (t0 t1 : Int) (cwd : String) (opts : RunOpts)
    (artifacts : Artifacts)
    (hgather : Runner.gatherArtifacts c cwd opts = .ok artifacts)
    (hsave : ∀ a p, c.saveArtifacts a p = .ok ()) :
    ∃ rest, (Runner.run c t0 t1 cwd opts).2
        = Effect.breadcrumb ::
          ((if opts.config.settings.gatherMode.truthy then
              [Effect.savedArtifacts (Runner.getArtifactsPath cwd opts.config.settings) artifacts]
            else []) ++ rest) ∧
      (rest = [] ∨ ∃ e, rest = [Effect.telemetryFatal e]) := by
  have hsS := saveStep_of_hsave c cwd opts.config.settings artifacts hsave
  cases hb : Runner.shouldAudit opts.config.settings with
  | false =>
      refine ⟨[], ?_, Or.inl rfl⟩
      simp [Runner.run, Runner.runInner, hgather, hsS, hb]
  | true =>
      cases ha : Runner.auditArtifacts c artifacts opts with
      | error ae =>
          refine ⟨[Effect.telemetryFatal ae], ?_, Or.inr ⟨ae, rfl⟩⟩
          simp [Runner.run, Runner.runInner, hgather, hsS, hb, ha]
      | ok res =>
          refine ⟨[], ?_, Or.inl rfl⟩
          simp [Runner.run, Runner.runInner, hgather, hsS, hb, ha]

/-- Claim C10: artifacts are persisted if and only if settings.gatherMode
is truthy; in a default full run (both mode flags unset) collection runs
via the browser (shouldGather is true) but the gathered artifacts are
never written to disk. -/
theorem persist_iff_gatherMode_spec (c : Collaborators) (t0 t1 : Int) (cwd : String)
    (opts : RunOpts) (artifacts : Artifacts)
    (hgather : Runner.gatherArtifacts c cwd opts = .ok artifacts)
    (hsave : ∀ a p, c.saveArtifacts a p = .ok ()) :
    ((∃ p a, Effect.savedArtifacts p a ∈ (Runner.run c t0 t1 cwd opts).2)
        ↔ opts.config.settings.gatherMode.truthy = true) ∧
    (opts.config.settings.gatherMode = .mfalse → opts.config.settings.auditMode = .mfalse →
      Runner.shouldGather opts.config.settings = true ∧
      ∀ p a, Effect.savedArtifacts p a ∉ (Runner.run c t0 t1 cwd opts).2) := by
  obtain ⟨rest, htr, hrest⟩ := run_trace_decomp c t0 t1 cwd opts artifacts hgather hsave
  have noSaveOfFalsy : opts.config.settings.gatherMode.truthy = false →
      ∀ p a, Effect.savedArtifacts p a ∉ (Runner.run c t0 t1 cwd opts).2 := by
    intro ht p a hmem
    rw [htr, ht] at hmem
    rcases hrest with rfl | ⟨e, rfl⟩ <;> simp at hmem
  constructor
  · constructor
    · intro hex
      cases h2 : opts.config.settings.gatherMode.truthy with
      | true => rfl
      | false =>
          exfalso
          obtain ⟨p, a, hmem⟩ := hex
          exact noSaveOfFalsy h2 p a hmem
    · intro ht
      refine ⟨Runner.getArtifactsPath cwd opts.config.settings, artifacts, ?_⟩
      rw [htr, ht]
      simp
  · intro hgm ham
    refine ⟨by simp [Runner.shouldGather, hgm, ham], ?_⟩
    exact noSaveOfFalsy (by rw [hgm]; rfl)

/-- Witness for C10: the default full run gathers from the browser. -/
theorem persist_iff_gatherMode_spec_witness :
    Runner.shouldGather settingsDefault = true :=
  ((persist_iff_gatherMode_spec collabTest 0 5 "/cwd" optsFull artifactsTest (by decide)
      (fun _ _ => rfl)).2 rfl rfl).1
/-- A run that resolves with a report record went through a successful
gather and audit phase, and the record is the assembled LHR triple. -/
theorem run_ok_result_shape (c : Collaborators) (t0 t1 : Int) (cwd : String)
    (opts : RunOpts) (res : RunnerResult) (effs : List Effect)
    (h : Runner.run c t0 t1 cwd opts = (.ok (some res), effs)) :
    ∃ artifacts ares,
      Runner.gatherArtifacts c cwd opts = .ok artifacts ∧
      Runner.auditArtifacts c artifacts opts = .ok ares ∧
      res = ⟨Runner.assembleLHR c t0 t1 opts artifacts ares.1 ares.2, artifacts,
        c.generateReport (Runner.assembleLHR c t0 t1 opts artifacts ares.1 ares.2)
          opts.config.settings.output⟩ := by
  have hfst : (Runner.runInner c t0 t1 cwd opts).1 = .ok (some res) := by
    have h2 := congrArg Prod.fst h
    simpa [Runner.run] using h2
  cases hg : Runner.gatherArtifacts c cwd opts with
  | error ge =>
      have heq : Runner.runInner c t0 t1 cwd opts
          = (.error ge, [Effect.telemetryFatal ge]) := by
        simp [Runner.runInner, hg]
      rw [heq] at hfst
      simp at hfst
  | ok artifacts =>
      cases hs : Runner.saveStep c cwd opts.config.settings artifacts with
      | error m =>
          have heq : Runner.runInner c t0 t1 cwd opts
              = (.error (.collaborator m), [Effect.telemetryFatal (.collaborator m)]) := by
            simp [Runner.runInner, hg, hs]
          rw [heq] at hfst
          simp at hfst
      | ok saveEffs =>
          cases hb : Runner.shouldAudit opts.config.settings with
          | false =>
              have heq : Runner.runInner c t0 t1 cwd opts = (.ok none, saveEffs) := by
                simp [Runner.runInner, hg, hs, hb]
              rw [heq] at hfst
              simp at hfst
          | true =>
              cases ha : Runner.auditArtifacts c artifacts opts with
              | error ae =>
                  have heq : Runner.runInner c t0 t1 cwd opts
                      = (.error ae, saveEffs ++ [Effect.telemetryFatal ae]) := by
                    simp [Runner.runInner, hg, hs, hb, ha]
                  rw [heq] at hfst
                  simp at hfst
              | ok ares =>
                  have heq : Runner.runInner c t0 t1 cwd opts
                      = (.ok (some ⟨Runner.assembleLHR c t0 t1 opts artifacts ares.1 ares.2,
                            artifacts,
                            c.generateReport
                              (Runner.assembleLHR c t0 t1 opts artifacts ares.1 ares.2)
                              opts.config.settings.output⟩), saveEffs) := by
                    simp [Runner.runInner, hg, hs, hb, ha]
                  rw [heq] at hfst
                  simp at hfst
                  refine ⟨artifacts, ares, rfl, ha, ?_⟩
                  first
                  | exact hfst
                  | exact hfst.symm

/-- A successful run with no categories config yields an empty categories
mapping. -/
theorem run_ok_categories_none (c : Collaborators) (t0 t1 : Int) (cwd : String)
    (opts : RunOpts) (res : RunnerResult) (effs : List Effect)
    (hco : opts.config.categories = none)
    (h : Runner.run c t0 t1 cwd opts = (.ok (some res), effs)) :
    res.lhr.categories = [] := by
  obtain ⟨artifacts, ares, hg, ha, hres⟩ := run_ok_result_shape c t0 t1 cwd opts res effs h
  subst hres
  simp [Runner.assembleLHR, hco]
/-- Claim C8: a successful full run with one audit producing
`(id auditA, score 1)` and one category scored under `cat1` yields a report
record whose audits mapping carries auditA with score 1 (keyed by id,
last write wins on duplicate ids), whose categories mapping carries the
cat1 score record (and is empty whenever config.categories is absent),
whose timing.total is non-negative, and whose runWarnings are the
evaluation-phase warnings followed by the collection-phase warnings from
artifacts.LighthouseRunWarnings. -/
theorem full_run_report_spec (c : Collaborators) (t0 t1 : Int) (cwd : String)
    (opts : RunOpts) (artifacts : Artifacts) (evalW : List String)
    (cat : Category) (catScore : CategoryResult) (res : RunnerResult) (effs : List Effect)
    (h01 : t0 ≤ t1)
    (hgather : Runner.gatherArtifacts c cwd opts = .ok artifacts)
    (haudit : Runner.auditArtifacts c artifacts opts = .ok ([auditA], evalW))
    (hcats : opts.config.categories = some [cat])
    (hscore : c.scoreAllCategories [cat] (Runner.resultsById [auditA]) = [("cat1", catScore)])
    (hrun : Runner.run c t0 t1 cwd opts = (.ok (some res), effs)) :
    lookupAssoc res.lhr.audits "auditA" = some auditA ∧
    auditA.score = 1 ∧
    lookupAssoc res.lhr.categories "cat1" = some catScore ∧
    res.lhr.timing.total ≥ 0 ∧
    res.lhr.runWarnings = evalW ++ artifacts.LighthouseRunWarnings.getD [] ∧
    (∀ a1 a2 : AuditResult, a1.id = a2.id →
      lookupAssoc (Runner.resultsById [a1, a2]) a2.id = some a2) ∧
    (∀ (opts2 : RunOpts) (res2 : RunnerResult) (effs2 : List Effect),
      opts2.config.categories = none →
      Runner.run c t0 t1 cwd opts2 = (.ok (some res2), effs2) →
      res2.lhr.categories = []) := by
  obtain ⟨artifacts2, ares, hg2, ha2, hres⟩ :=
    run_ok_result_shape c t0 t1 cwd opts res effs hrun
  have hart : artifacts2 = artifacts := by
    have h2 := hg2.symm.trans hgather
    injection h2
  subst hart
  have hares : ares = ([auditA], evalW) := by
    have h2 := ha2.symm.trans haudit
    injection h2
  subst hares
  subst hres
  refine ⟨?_, rfl, ?_, ?_, ?_, ?_, ?_⟩
  · simp [Runner.assembleLHR, Runner.resultsById, upsertById, lookupAssoc, List.foldl, auditA]
  · simp [Runner.assembleLHR, hcats, hscore, lookupAssoc]
  · show t1 - t0 ≥ 0
    omega
  · simp [Runner.assembleLHR]
  · intro a1 a2 h12
    simp [Runner.resultsById, upsertById, lookupAssoc, List.foldl, h12]
  · intro opts2 res2 effs2 hco2 hrun2
    exact run_ok_categories_none c t0 t1 cwd opts2 res2 effs2 hco2 hrun2

/-- Witness for C8: the concrete full default run over the test
collaborators. -/
theorem full_run_report_spec_witness :
    lookupAssoc resTest.lhr.audits "auditA" = some auditA ∧
    auditA.score = 1 ∧
    lookupAssoc resTest.lhr.categories "cat1" = some catScoreTest ∧
    resTest.lhr.timing.total ≥ 0 ∧
    resTest.lhr.runWarnings = ["audit warning"] ++ artifactsTest.LighthouseRunWarnings.getD [] :=
  have H := full_run_report_spec collabTest 0 5 "/cwd" optsFull artifactsTest ["audit warning"]
    catTest catScoreTest resTest [Effect.breadcrumb] (by decide) (by decide) (by decide) rfl rfl
    (by decide)
  ⟨H.1, H.2.1, H.2.2.1, H.2.2.2.1, H.2.2.2.2.1⟩
